import Mathlib

/-!
Verification development for the whatsapp-server repository.

The embedding below models the two source variants the claims refer to:

* `servidor.js` (v4.2.0), the file the Dockerfile runs: module-level mutable
  globals (`state`, `sock`, `qrCodeData`, `qrAttempts`, `messages`), the
  `connectWhatsApp` admission gate, the `connection.update` handlers, the
  `messages.upsert` ring-buffer append, `setTimeout` reconnect scheduling, and
  the `/logout` and `/force-reset` HTTP handlers.  The asynchronous event loop
  is embedded as a small-step transition system: an `Ev` is one callback turn
  (a fired timer invoking `connectWhatsApp`, completion or failure of the
  awaited setup section, a library event delivered to a socket whose listeners
  are attached, or an HTTP control action).  Each socket the code ever created
  is identified by the value of `nextId` at admission time; the lists
  `liveSocks` / `openSocks` / `closedSocks` record which sockets currently have
  the code's listeners attached and what the library allows them to still emit
  (a socket emits `qr` only before `open`, emits `open` at most once, `close`
  at most once, and nothing after `close`); `removeAllListeners` deletes a
  socket from these lists.

* the unnamed v4.3.0 variant (part_004), the only variant with the
  `isConnected` / `isAuthenticated` / `isReady` booleans and the ready-gated
  `/send` handler; it is embedded separately as `St4` / `step4` /
  `sendHandler`.

Text payloads (jids, message bodies, error strings) are abstracted as `Nat`
tokens; phone-number strings are embedded as `List Char`.
-/

/-- Connection status strings of servidor.js
(`disconnected`, `connecting`, `waiting_qr`, `connected`, `error`). -/
inductive Status where
  | disconnected
  | connecting
  | waiting_qr
  | connected
  | error
deriving DecidableEq

/-- A stored record of the servidor.js `messages` array:
`{id, from, fromMe, text, timestamp, pushName}`. -/
structure MsgRec where
  id : Nat
  remoteJid : Nat
  fromMe : Bool
  text : Nat
  timestamp : Nat
  pushName : Nat
deriving DecidableEq

/-- An element of the `messages` list delivered by a `messages.upsert` event:
the fields the handler reads (`msg.message` presence, `msg.key.remoteJid`,
`msg.key.id`, `msg.key.fromMe`, text, `msg.pushName`). -/
structure EvMsg where
  id : Nat
  remoteJid : Nat
  fromMe : Bool
  hasMessage : Bool
  text : Nat
  pushName : Nat
deriving DecidableEq

/-- The abstract jid token standing for the string `status@broadcast`. -/
def statusBroadcast : Nat := 0

/-- `MAX_QR_ATTEMPTS` of servidor.js. -/
def MAX_QR_ATTEMPTS : Nat := 5

/-- `MAX_MESSAGES` of servidor.js. -/
def MAX_MESSAGES : Nat := 100

/-- `DisconnectReason.loggedOut` of the Baileys library (HTTP 401). -/
def loggedOut : Nat := 401

/-- `DisconnectReason.badSession` of the Baileys library (HTTP 500). -/
def badSession : Nat := 500

/-- The global mutable state of servidor.js plus the event-loop bookkeeping:
the `state` object's fields, the module globals `sock`, `qrCodeData`,
`qrAttempts`, `messages`, whether `.json` auth files exist (`checkSession`),
the sockets with listeners attached (partitioned by what the library can
still emit on them), the admitted connect attempts whose awaited setup
section has not finished, and the delays of the pending `setTimeout` tasks. -/
structure St where
  isConnected : Bool
  hasSession : Bool
  qrAvailable : Bool
  status : Status
  reconnectAttempts : Nat
  isConnecting : Bool
  messagesCount : Nat
  qrCodeData : Option Nat
  qrAttempts : Nat
  messages : List MsgRec
  authFiles : Bool
  sock : Option Nat
  liveSocks : List Nat
  openSocks : List Nat
  closedSocks : List Nat
  pendingSetups : List Nat
  pendingTimers : List Nat
  nextId : Nat
deriving DecidableEq

/-- The state at module load: the initial `state` literal of servidor.js,
no socket, no auth files, nothing pending. -/
def init : St :=
  { isConnected := false
    hasSession := false
    qrAvailable := false
    status := Status.disconnected
    reconnectAttempts := 0
    isConnecting := false
    messagesCount := 0
    qrCodeData := none
    qrAttempts := 0
    messages := []
    authFiles := false
    sock := none
    liveSocks := []
    openSocks := []
    closedSocks := []
    pendingSetups := []
    pendingTimers := []
    nextId := 0 }

/-- One callback turn of the event loop. -/
inductive Ev where
  /-- The earliest pending `setTimeout` task fires and invokes
  `connectWhatsApp` (no-op when nothing is pending). -/
  | fireTimer
  /-- Attempt `a`'s awaited setup section (`useMultiFileAuthState`,
  `fetchLatestBaileysVersion`, `makeWASocket`, `sock.ev.on(...)`) completes:
  `sock` is assigned the new socket and its listeners are attached. -/
  | setupOk (a : Nat)
  /-- Attempt `a`'s awaited setup section throws: the `catch` block runs. -/
  | setupThrow (a : Nat)
  /-- The library fires `creds.update` on socket `a`: `saveCreds` writes the
  credential files. -/
  | credsUpdate (a : Nat)
  /-- `connection.update` with a `qr` payload `q` on socket `a`. -/
  | evQR (a : Nat) (q : Nat)
  /-- `connection.update` with `connection === 'open'` on socket `a`. -/
  | evOpen (a : Nat)
  /-- `connection.update` with `connection === 'close'` and Boom status
  `code` on socket `a`. -/
  | evClose (a : Nat) (code : Nat)
  /-- `messages.upsert` on socket `a` at wall-clock time `t` carrying
  `msgs`. -/
  | evUpsert (a : Nat) (t : Nat) (msgs : List EvMsg)
  /-- The `POST /logout` handler body. -/
  | httpLogout
  /-- The `POST /force-reset` handler body. -/
  | httpForceReset
deriving DecidableEq

/-- The synchronous prefix of `connectWhatsApp` (servidor.js lines 78-88):
the `isConnecting` admission gate, then
`updateState({isConnecting: true, status: 'connecting'})`,
`checkSession()` and `updateState({hasSession})`, after which the function
suspends at its first `await`; the suspended attempt is registered in
`pendingSetups` under a fresh id. -/
def connectWhatsApp (s : St) : St :=
  if s.isConnecting then s
  else
    { s with
      isConnecting := true
      status := Status.connecting
      hasSession := s.authFiles
      pendingSetups := s.nextId :: s.pendingSetups
      nextId := s.nextId + 1 }

/-- The backoff delay computed by the transient branch of the close handler
(servidor.js line 140): `Math.min(5000 + attempts * 2000, 30000)`. -/
def reconnectDelay (attempts : Nat) : Nat :=
  min (5000 + attempts * 2000) 30000

/-- The body of the `connection === 'close'` branch (servidor.js lines
118-145), applied to a state whose socket bookkeeping is already updated but
whose counters are those read by the handler. -/
def closeUpdate (s : St) (code : Nat) : St :=
  let s1 :=
    { s with
      isConnected := false
      isConnecting := false
      qrAvailable := false
      status := Status.disconnected }
  if code = loggedOut ∨ code = badSession then
    { s1 with
      authFiles := false
      qrCodeData := none
      qrAttempts := 0
      hasSession := false
      pendingTimers := 2000 :: s1.pendingTimers }
  else if code ≠ loggedOut then
    { s1 with
      reconnectAttempts := s.reconnectAttempts + 1
      pendingTimers := reconnectDelay s.reconnectAttempts :: s1.pendingTimers }
  else s1

/-- The body of the `connection === 'open'` branch (servidor.js lines
147-160). -/
def openUpdate (s : St) : St :=
  { s with
    qrCodeData := none
    qrAttempts := 0
    isConnected := true
    isConnecting := false
    qrAvailable := false
    hasSession := true
    status := Status.connected
    reconnectAttempts := 0 }

/-- The QR branch of the `connection.update` handler (servidor.js lines
111-116): guarded by `qr && !state.isConnected && qrAttempts <
MAX_QR_ATTEMPTS`. -/
def qrUpdate (s : St) (q : Nat) : St :=
  if s.isConnected = false ∧ s.qrAttempts < MAX_QR_ATTEMPTS then
    { s with
      qrCodeData := some q
      qrAttempts := s.qrAttempts + 1
      qrAvailable := true
      status := Status.waiting_qr }
  else s

/-- One append to the `messages` array (servidor.js lines 171-180):
`messages.unshift(record)` followed by
`if (messages.length > MAX_MESSAGES) messages.pop()`. -/
def appendMessage (log : List MsgRec) (r : MsgRec) : List MsgRec :=
  let l := r :: log
  if MAX_MESSAGES < l.length then l.dropLast else l

/-- Handling of one element of a `messages.upsert` batch (servidor.js lines
164-181): skip when `!msg.message` or the jid is `status@broadcast`,
otherwise unshift a record stamped with `Date.now()`. -/
def upsertOne (t : Nat) (log : List MsgRec) (m : EvMsg) : List MsgRec :=
  if m.hasMessage = false ∨ m.remoteJid = statusBroadcast then log
  else
    appendMessage log
      { id := m.id
        remoteJid := m.remoteJid
        fromMe := m.fromMe
        text := m.text
        timestamp := t
        pushName := m.pushName }

/-- The whole `messages.upsert` handler (servidor.js lines 163-185),
including the `updateState({messagesCount: messages.length})` call. -/
def upsertUpdate (s : St) (t : Nat) (msgs : List EvMsg) : St :=
  let newLog := msgs.foldl (upsertOne t) s.messages
  { s with messages := newLog, messagesCount := newLog.length }

/-- The small-step semantics of one callback turn of servidor.js. -/
def step (s : St) (e : Ev) : St :=
  match e with
  | Ev.fireTimer =>
    match s.pendingTimers with
    | [] => s
    | _ :: rest => connectWhatsApp { s with pendingTimers := rest }
  | Ev.setupOk a =>
    if a ∈ s.pendingSetups then
      { s with
        pendingSetups := s.pendingSetups.erase a
        sock := some a
        liveSocks := a :: s.liveSocks }
    else s
  | Ev.setupThrow a =>
    if a ∈ s.pendingSetups then
      { s with
        pendingSetups := s.pendingSetups.erase a
        isConnecting := false
        status := Status.error
        pendingTimers := 5000 :: s.pendingTimers }
    else s
  | Ev.credsUpdate a =>
    if a ∈ s.liveSocks ∨ a ∈ s.openSocks then { s with authFiles := true }
    else s
  | Ev.evQR a q =>
    if a ∈ s.liveSocks then qrUpdate s q else s
  | Ev.evOpen a =>
    if a ∈ s.liveSocks then
      openUpdate
        { s with liveSocks := s.liveSocks.erase a, openSocks := a :: s.openSocks }
    else s
  | Ev.evClose a code =>
    if a ∈ s.liveSocks then
      closeUpdate
        { s with liveSocks := s.liveSocks.erase a, closedSocks := a :: s.closedSocks }
        code
    else if a ∈ s.openSocks then
      closeUpdate
        { s with openSocks := s.openSocks.erase a, closedSocks := a :: s.closedSocks }
        code
    else s
  | Ev.evUpsert a t msgs =>
    if a ∈ s.openSocks then upsertUpdate s t msgs else s
  | Ev.httpLogout =>
    { s with
      sock := none
      authFiles := false
      qrCodeData := none
      qrAttempts := 0
      isConnected := false
      hasSession := false
      qrAvailable := false
      status := Status.disconnected
      isConnecting := false
      pendingTimers := 1000 :: s.pendingTimers }
  | Ev.httpForceReset =>
    let s1 :=
      match s.sock with
      | some a =>
        { s with
          liveSocks := s.liveSocks.filter (fun b => b ≠ a)
          openSocks := s.openSocks.filter (fun b => b ≠ a)
          sock := none }
      | none => s
    { s1 with
      authFiles := false
      qrCodeData := none
      qrAttempts := 0
      isConnected := false
      hasSession := false
      qrAvailable := false
      status := Status.disconnected
      isConnecting := false
      reconnectAttempts := 0
      pendingTimers := 1000 :: s1.pendingTimers }

/-- Run a sequence of callback turns. -/
def run (s : St) (tr : List Ev) : St := tr.foldl step s

/-- The state right after `app.listen` invoked `connectWhatsApp` at startup
(servidor.js line 425) and the call suspended at its first `await`. -/
def boot : St := connectWhatsApp init

/-- The `GET /messages` handler (servidor.js lines 392-394): it returns the
log and its length and leaves the state untouched. -/
def getMessagesHandler (s : St) : (List MsgRec × Nat) × St :=
  ((s.messages, s.messages.length), s)

/-- Events of the automatic lifecycle: everything except the two
operator-initiated HTTP control actions. -/
def autoEv : Ev → Bool
  | Ev.httpLogout => false
  | Ev.httpForceReset => false
  | _ => true

/-- Attempts currently in flight: admitted by the gate and not yet arrived at
a terminal outcome (still awaiting setup, or attached with `open`/`close`
still to come). -/
def inFlight (s : St) : Nat :=
  s.pendingSetups.length + s.liveSocks.length

/-- The single token the automatic lifecycle passes around: a pending timer,
an in-flight attempt, or an established (opened) connection. -/
def opBudget (s : St) : Nat :=
  s.pendingTimers.length + s.pendingSetups.length + s.liveSocks.length +
    s.openSocks.length

/-- Gate/attempt bookkeeping invariant of the automatic lifecycle. -/
def connInv (s : St) : Prop :=
  opBudget s = 1 ∧ (s.isConnecting = true ↔ inFlight s ≠ 0)

/-- Whether event `e` is a terminal outcome of an attempt in state `s`: its
setup section throws, or a socket with listeners attached emits `open` or
`close`. -/
def terminalFor (s : St) : Ev → Bool
  | Ev.setupThrow a => decide (a ∈ s.pendingSetups)
  | Ev.evOpen a => decide (a ∈ s.liveSocks)
  | Ev.evClose a _ => decide (a ∈ s.liveSocks) || decide (a ∈ s.openSocks)
  | _ => false

/-- Most-recent-first order of the message log. -/
def sortedDesc (log : List MsgRec) : Prop :=
  List.Pairwise (fun x y => y.timestamp ≤ x.timestamp) log

/-- A sample stored message record, used as a concrete witness input. -/
def mr0 : MsgRec :=
  { id := 1, remoteJid := 2, fromMe := false, text := 3, timestamp := 4, pushName := 5 }

/-- The trace that exhausts the QR budget: one admitted attempt whose socket
emits five QR codes. -/
def c7trace : List Ev :=
  [Ev.setupOk 0, Ev.evQR 0 1, Ev.evQR 0 2, Ev.evQR 0 3, Ev.evQR 0 4, Ev.evQR 0 5]

/-- Connection status strings of the v4.3.0 variant (part_004):
`disconnected`, `waiting_qr`, `connected`. -/
inductive Status4 where
  | disconnected
  | waiting_qr
  | connected
deriving DecidableEq

/-- A record of the v4.3.0 variant's `messages` array:
`{id, phone, text, timestamp, fromMe, type}` with the constant fields
dropped and text payloads abstracted as `Nat` tokens. -/
structure Msg4 where
  id : Nat
  phone : Nat
  text : Nat
  fromMe : Bool
deriving DecidableEq

/-- An element of a `messages.upsert` batch as read by the v4.3.0 handler. -/
structure InMsg4 where
  id : Nat
  remoteJid : Nat
  fromMe : Bool
  hasMessage : Bool
  text : Nat
deriving DecidableEq

/-- The global mutable state of the v4.3.0 variant (part_004 lines 32-43). -/
structure St4 where
  connectionStatus : Status4
  isConnected : Bool
  isAuthenticated : Bool
  isReady : Bool
  lastError : Option Nat
  qrCode : Bool
  reconnectAttempts : Nat
  messages : List Msg4
  authFiles : Bool
deriving DecidableEq

/-- The v4.3.0 variant's state at module load. -/
def init4 : St4 :=
  { connectionStatus := Status4.disconnected
    isConnected := false
    isAuthenticated := false
    isReady := false
    lastError := none
    qrCode := false
    reconnectAttempts := 0
    messages := []
    authFiles := false }

/-- One callback turn of the v4.3.0 variant's event loop. -/
inductive Ev4 where
  /-- `connection.update` with a `qr` payload. -/
  | evQR
  /-- `connection.update` with `connection === 'open'`. -/
  | evOpen
  /-- `connection.update` with `connection === 'close'` and status
  `code`. -/
  | evClose (code : Nat)
  /-- `messages.upsert` with the given `type === 'notify'` flag and batch. -/
  | evUpsert (notify : Bool) (msgs : List InMsg4)
  /-- The 10-second ready fallback `setTimeout` (part_004 lines 234-239). -/
  | readyTimeout
  /-- The `POST /logout` handler body. -/
  | httpLogout
  /-- The `POST /force-reset` handler body. -/
  | httpForceReset
deriving DecidableEq

/-- One incoming-message append of the v4.3.0 upsert handler (part_004
lines 209-228): guarded by `!msg.key.fromMe && msg.message`, unshift then
`slice(0, 200)` beyond 200 entries. -/
def pushIncoming (log : List Msg4) (m : InMsg4) : List Msg4 :=
  if m.fromMe = false ∧ m.hasMessage = true then
    let l := { id := m.id, phone := m.remoteJid, text := m.text, fromMe := false } :: log
    if 200 < l.length then l.take 200 else l
  else log

/-- The small-step semantics of the v4.3.0 variant's event handlers
(part_004 lines 130-250 and the control routes). -/
def step4 (s : St4) (e : Ev4) : St4 :=
  match e with
  | Ev4.evQR =>
    { s with
      qrCode := true
      connectionStatus := Status4.waiting_qr
      isConnected := false
      isAuthenticated := false
      isReady := false }
  | Ev4.evOpen =>
    { s with
      reconnectAttempts := 0
      qrCode := false
      connectionStatus := Status4.connected
      isConnected := true
      isAuthenticated := true
      lastError := none }
  | Ev4.evClose code =>
    let s1 :=
      { s with
        connectionStatus := Status4.disconnected
        isConnected := false
        isReady := false
        qrCode := false }
    let s2 :=
      if code = 401 then { s1 with authFiles := false, reconnectAttempts := 0 }
      else s1
    if s2.reconnectAttempts < 10 then
      { s2 with reconnectAttempts := s2.reconnectAttempts + 1 }
    else
      { s2 with lastError := some 1 }
  | Ev4.evUpsert notify msgs =>
    let s1 :=
      if s.isReady = false ∧ s.isConnected = true then { s with isReady := true }
      else s
    if notify then { s1 with messages := msgs.foldl pushIncoming s1.messages }
    else s1
  | Ev4.readyTimeout =>
    if s.isConnected = true ∧ s.isReady = false then { s with isReady := true }
    else s
  | Ev4.httpLogout =>
    { s with
      authFiles := false
      connectionStatus := Status4.disconnected
      isConnected := false
      isAuthenticated := false
      isReady := false
      qrCode := false }
  | Ev4.httpForceReset =>
    { s with
      authFiles := false
      connectionStatus := Status4.disconnected
      isConnected := false
      isAuthenticated := false
      isReady := false
      lastError := none
      qrCode := false
      reconnectAttempts := 0 }

/-- Run a sequence of callback turns of the v4.3.0 variant. -/
def run4 (s : St4) (tr : List Ev4) : St4 := tr.foldl step4 s

/-- An HTTP response of the `/send` handler: status code and the `ok`
field of the JSON body. -/
structure Resp where
  code : Nat
  ok : Bool
deriving DecidableEq

/-- Outcome of the awaited `sock.sendMessage` call. -/
inductive LibResult where
  | ok
  | err (e : Nat)
deriving DecidableEq

/-- The outbound record the v4.3.0 `/send` handler unshifts on success
(part_004 lines 395-402): `fromMe: true`. -/
def mkSent (phone text : Nat) : Msg4 :=
  { id := 0, phone := phone, text := text, fromMe := true }

/-- The v4.3.0 `POST /send` handler (part_004 lines 366-420): 400 when
`phone` or `message` is missing, 503 when `!isConnected || !isReady`,
otherwise forward to the library; on success unshift one outbound record
and answer 200, on a thrown library error answer 500. -/
def sendHandler (s : St4) (phone text : Option Nat) (lib : LibResult) :
    Resp × St4 :=
  match phone, text with
  | some p, some t =>
    if s.isConnected = false ∨ s.isReady = false then
      ({ code := 503, ok := false }, s)
    else
      match lib with
      | LibResult.ok =>
        ({ code := 200, ok := true }, { s with messages := mkSent p t :: s.messages })
      | LibResult.err _ => ({ code := 500, ok := false }, s)
  | _, _ => ({ code := 400, ok := false }, s)

/-- Boolean form of the v4.3.0 snapshot invariants that do hold:
`isReady ⇒ isConnected`, `isConnected ⇒ isAuthenticated`, and hence
`isReady ⇒ isAuthenticated`. -/
def inv4 (s : St4) : Bool :=
  (!s.isReady || s.isConnected) && (!s.isConnected || s.isAuthenticated) &&
    (!s.isReady || s.isAuthenticated)

/-- Boolean invariant tying the v4.3.0 status string to the booleans:
while `connectionStatus = waiting_qr` the connection flag is down. -/
def qrInv (s : St4) : Bool :=
  !(decide (s.connectionStatus = Status4.waiting_qr)) || !s.isConnected

/-- Keep only digit characters: the JS `phone.replace(/\D/g, '')`. -/
def stripNonDigits (p : List Char) : List Char :=
  p.filter Char.isDigit

/-- Whether a character list starts with `55`. -/
def startsWith55 : List Char → Bool
  | d :: e :: _ => d == '5' && e == '5'
  | _ => false

/-- Whether a character list starts with `0`. -/
def startsWith0 : List Char → Bool
  | d :: _ => d == '0'
  | _ => false

/-- Leading-zero rewrite of servidor.js `formatPhone` (line 45):
`if (cleaned.startsWith('0')) cleaned = '55' + cleaned.substring(1)`. -/
def fixZero (c : List Char) : List Char :=
  if startsWith0 c = true then '5' :: '5' :: c.tail else c

/-- Country-code rewrite of servidor.js `formatPhone` (line 46):
`if (!cleaned.startsWith('55') && cleaned.length <= 11) cleaned = '55' +
cleaned`. -/
def addCountry (c : List Char) : List Char :=
  if startsWith55 c = false ∧ c.length ≤ 11 then '5' :: '5' :: c else c

/-- `formatPhone` of servidor.js (lines 43-48). -/
def formatPhone (p : List Char) : List Char :=
  addCountry (fixZero (stripNonDigits p))

/-- `formatPhone` of the v4.3.0 variant (part_004 lines 64-73): prepend `55`
exactly when the digit string has length 10, or length 11 (the
`startsWith('9')` branch and the `length === 10 || length === 11` branch
prepend the same prefix). -/
def formatPhone4 (p : List Char) : List Char :=
  if (stripNonDigits p).length = 11 ∧ (stripNonDigits p).head? = some '9' then
    '5' :: '5' :: stripNonDigits p
  else if (stripNonDigits p).length = 10 ∨ (stripNonDigits p).length = 11 then
    '5' :: '5' :: stripNonDigits p
  else stripNonDigits p

theorem stripNonDigits_mem_isDigit (p : List Char) :
    ∀ c ∈ stripNonDigits p, c.isDigit = true := by
  intro c hc
  exact (List.mem_filter.mp hc).2

theorem stripNonDigits_of_digits (l : List Char)
    (h : ∀ c ∈ l, c.isDigit = true) : stripNonDigits l = l :=
  List.filter_eq_self.mpr h

theorem fixZero_digits (l : List Char) (h : ∀ c ∈ l, c.isDigit = true) :
    ∀ c ∈ fixZero l, c.isDigit = true := by
  unfold fixZero
  split_ifs with h0
  · intro c hmem
    simp only [List.mem_cons] at hmem
    rcases hmem with hc | hc | hm
    · rw [hc]
      decide
    · rw [hc]
      decide
    · exact h c (List.tail_sublist l |>.subset hm)
  · exact h

theorem addCountry_digits (l : List Char) (h : ∀ c ∈ l, c.isDigit = true) :
    ∀ c ∈ addCountry l, c.isDigit = true := by
  unfold addCountry
  split_ifs with hc
  · intro c hmem
    simp only [List.mem_cons] at hmem
    rcases hmem with hm | hm | hm
    · rw [hm]
      decide
    · rw [hm]
      decide
    · exact h c hm
  · exact h

theorem startsWith0_fixZero (l : List Char) : startsWith0 (fixZero l) = false := by
  unfold fixZero
  split_ifs with h0
  · rfl
  · simpa using h0

theorem startsWith0_addCountry (l : List Char) (h : startsWith0 l = false) :
    startsWith0 (addCountry l) = false := by
  unfold addCountry
  split_ifs with hc
  · rfl
  · exact h

theorem addCountry_long_or_55 (l : List Char) :
    startsWith55 (addCountry l) = true ∨ 11 < (addCountry l).length := by
  unfold addCountry
  split_ifs with hc
  · left
    rfl
  · rcases Decidable.not_and_iff_or_not.mp hc with h1 | h2
    · left
      simpa using h1
    · right
      omega

theorem formatPhone_fix (o : List Char) (hd : ∀ c ∈ o, c.isDigit = true)
    (h0 : startsWith0 o = false)
    (h55 : startsWith55 o = true ∨ 11 < o.length) : formatPhone o = o := by
  unfold formatPhone
  rw [stripNonDigits_of_digits o hd]
  unfold fixZero
  rw [if_neg (by simp [h0])]
  unfold addCountry
  rw [if_neg]
  rcases h55 with h | h
  · simp [h]
  · intro hcon
    omega

theorem formatPhone_idem (p : List Char) :
    formatPhone (formatPhone p) = formatPhone p := by
  apply formatPhone_fix
  · exact addCountry_digits _ (fixZero_digits _ (stripNonDigits_mem_isDigit p))
  · exact startsWith0_addCountry _ (startsWith0_fixZero _)
  · exact addCountry_long_or_55 _

theorem formatPhone4_cases (p : List Char) :
    (formatPhone4 p = '5' :: '5' :: stripNonDigits p ∧
      ((stripNonDigits p).length = 10 ∨ (stripNonDigits p).length = 11)) ∨
    (formatPhone4 p = stripNonDigits p ∧
      (stripNonDigits p).length ≠ 10 ∧ (stripNonDigits p).length ≠ 11) := by
  unfold formatPhone4
  split_ifs with h1 h2
  · exact Or.inl ⟨rfl, Or.inr h1.1⟩
  · exact Or.inl ⟨rfl, h2⟩
  · refine Or.inr ⟨rfl, ?_, ?_⟩ <;> intro hcon <;> exact h2 (by omega)

theorem formatPhone4_fix (o : List Char) (hd : ∀ c ∈ o, c.isDigit = true)
    (h10 : o.length ≠ 10) (h11 : o.length ≠ 11) : formatPhone4 o = o := by
  unfold formatPhone4
  rw [stripNonDigits_of_digits o hd]
  rw [if_neg (by intro hcon; exact h11 hcon.1)]
  rw [if_neg (by intro hcon; rcases hcon with h | h; exact h10 h; exact h11 h)]

theorem formatPhone4_idem (p : List Char) :
    formatPhone4 (formatPhone4 p) = formatPhone4 p := by
  have hd := stripNonDigits_mem_isDigit p
  rcases formatPhone4_cases p with ⟨heq, hlen⟩ | ⟨heq, h10, h11⟩
  · rw [heq]
    apply formatPhone4_fix
    · intro c hm
      simp only [List.mem_cons] at hm
      rcases hm with hc | hc | hm
      · rw [hc]
        decide
      · rw [hc]
        decide
      · exact hd c hm
    · simp only [List.length_cons]
      omega
    · simp only [List.length_cons]
      omega
  · rw [heq]
    exact formatPhone4_fix _ hd h10 h11

/-- C10: phone-number normalization is idempotent: for every input string
`p`, `formatPhone (formatPhone p) = formatPhone p`, both for the
servidor.js normalizer and for the v4.3.0 variant's normalizer. -/
theorem c10_formatPhone_idempotent :
    (∀ p, formatPhone (formatPhone p) = formatPhone p) ∧
    (∀ p, formatPhone4 (formatPhone4 p) = formatPhone4 p) :=
  ⟨formatPhone_idem, formatPhone4_idem⟩

theorem appendMessage_length (log : List MsgRec) (r : MsgRec)
    (h : log.length ≤ MAX_MESSAGES) :
    (appendMessage log r).length ≤ MAX_MESSAGES := by
  simp only [appendMessage]
  split_ifs with hlen
  · simp only [List.length_dropLast, List.length_cons]
    omega
  · simp only [List.length_cons] at hlen ⊢
    omega

theorem appendMessage_eq (log : List MsgRec) (r : MsgRec) :
    appendMessage log r = r :: log ∨ appendMessage log r = r :: log.dropLast := by
  simp only [appendMessage]
  split_ifs with hlen
  · right
    cases log with
    | nil => simp [MAX_MESSAGES] at hlen
    | cons x xs => rfl
  · left
    rfl

theorem appendMessage_small (log : List MsgRec) (r : MsgRec)
    (h : log.length < MAX_MESSAGES) : appendMessage log r = r :: log := by
  simp only [appendMessage]
  rw [if_neg]
  simp only [List.length_cons]
  omega

theorem appendMessage_sorted (log : List MsgRec) (r : MsgRec)
    (hs : sortedDesc log) (hle : ∀ x ∈ log, x.timestamp ≤ r.timestamp) :
    sortedDesc (appendMessage log r) := by
  rcases appendMessage_eq log r with h | h <;> rw [h]
  · exact List.pairwise_cons.mpr ⟨hle, hs⟩
  · refine List.pairwise_cons.mpr ⟨?_, hs.sublist (List.dropLast_sublist log)⟩
    intro x hx
    exact hle x ((List.dropLast_sublist log).subset hx)

theorem upsertFold_length (t : Nat) (msgs : List EvMsg) :
    ∀ log : List MsgRec, log.length ≤ MAX_MESSAGES →
      (msgs.foldl (upsertOne t) log).length ≤ MAX_MESSAGES := by
  induction msgs with
  | nil =>
    intro log h
    simpa using h
  | cons m ms ih =>
    intro log h
    simp only [List.foldl_cons]
    apply ih
    unfold upsertOne
    split_ifs with hskip
    · exact h
    · exact appendMessage_length log _ h

theorem messages_length_step (s : St) (e : Ev)
    (h : s.messages.length ≤ MAX_MESSAGES) :
    (step s e).messages.length ≤ MAX_MESSAGES := by
  cases e with
  | fireTimer =>
    cases hpt : s.pendingTimers with
    | nil => simpa [step, hpt] using h
    | cons d rest =>
      simp only [step, hpt]
      unfold connectWhatsApp
      split_ifs <;> simpa using h
  | setupOk a =>
    simp only [step]
    split_ifs <;> simpa using h
  | setupThrow a =>
    simp only [step]
    split_ifs <;> simpa using h
  | credsUpdate a =>
    simp only [step]
    split_ifs <;> simpa using h
  | evQR a q =>
    simp only [step]
    split_ifs with hm
    · unfold qrUpdate
      split_ifs <;> simpa using h
    · simpa using h
  | evOpen a =>
    simp only [step]
    split_ifs with hm
    · simpa [openUpdate] using h
    · simpa using h
  | evClose a code =>
    simp only [step]
    split_ifs with h1 h2 <;> try simpa using h
    all_goals
      unfold closeUpdate
      split_ifs <;> simpa using h
  | evUpsert a t msgs =>
    simp only [step]
    split_ifs with hm
    · unfold upsertUpdate
      simpa using upsertFold_length t msgs s.messages h
    · simpa using h
  | httpLogout => simpa [step] using h
  | httpForceReset =>
    simp only [step]
    cases hs : s.sock <;> simpa using h

theorem messages_length_run (tr : List Ev) :
    ∀ s : St, s.messages.length ≤ MAX_MESSAGES →
      (run s tr).messages.length ≤ MAX_MESSAGES := by
  induction tr with
  | nil =>
    intro s h
    simpa [run] using h
  | cons e rest ih =>
    intro s h
    have h2 := messages_length_step s e h
    simpa [run] using ih (step s e) h2

theorem inv4_step (s : St4) (e : Ev4) (h : inv4 s = true) :
    inv4 (step4 s e) = true := by
  cases e with
  | evQR => simp [step4, inv4]
  | evOpen => simp [step4, inv4]
  | evClose code =>
    simp only [step4]
    split_ifs <;> simp [inv4]
  | evUpsert notify msgs =>
    simp only [step4]
    split_ifs with h1 h2 <;> simp_all [inv4]
  | readyTimeout =>
    simp only [step4]
    split_ifs with h1 <;> simp_all [inv4]
  | httpLogout => simp [step4, inv4]
  | httpForceReset => simp [step4, inv4]

theorem inv4_run (tr : List Ev4) :
    ∀ s : St4, inv4 s = true → inv4 (run4 s tr) = true := by
  induction tr with
  | nil =>
    intro s h
    simpa [run4] using h
  | cons e rest ih =>
    intro s h
    simpa [run4] using ih (step4 s e) (inv4_step s e h)

theorem qrInv_step (s : St4) (e : Ev4) (h : qrInv s = true) :
    qrInv (step4 s e) = true := by
  cases e with
  | evQR => simp [step4, qrInv]
  | evOpen => simp [step4, qrInv]
  | evClose code =>
    simp only [step4]
    split_ifs <;> simp [qrInv]
  | evUpsert notify msgs =>
    simp only [step4]
    split_ifs <;> simpa [qrInv] using h
  | readyTimeout =>
    simp only [step4]
    split_ifs <;> simpa [qrInv] using h
  | httpLogout => simp [step4, qrInv]
  | httpForceReset => simp [step4, qrInv]

theorem qrInv_run (tr : List Ev4) :
    ∀ s : St4, qrInv s = true → qrInv (run4 s tr) = true := by
  induction tr with
  | nil =>
    intro s h
    simpa [run4] using h
  | cons e rest ih =>
    intro s h
    simpa [run4] using ih (step4 s e) (qrInv_step s e h)

/-- C6: in the v4.3.0 variant, `POST /send` answers 400 whenever `phone` or
`message` is missing; in any reachable state with `isReady = true` (the
spec's `ready` status) and a successful library call it answers 200 with
`ok: true` and unshifts exactly one outbound (`fromMe: true`, i.e.
direction `out`) record at the head of the message log; in any reachable
state with `connectionStatus = waiting_qr` it answers 503 with `ok: false`
and leaves the state unchanged; a thrown library send error in a ready
state is answered with 500. -/
theorem c6_send_handler :
    (∀ (s : St4) (t : Option Nat) (lib : LibResult),
      sendHandler s none t lib = ({ code := 400, ok := false }, s)) ∧
    (∀ (s : St4) (p : Nat) (lib : LibResult),
      sendHandler s (some p) none lib = ({ code := 400, ok := false }, s)) ∧
    (∀ (tr : List Ev4) (p t : Nat), (run4 init4 tr).isReady = true →
      sendHandler (run4 init4 tr) (some p) (some t) LibResult.ok =
        ({ code := 200, ok := true },
          { run4 init4 tr with
              messages := mkSent p t :: (run4 init4 tr).messages }) ∧
      (mkSent p t).fromMe = true) ∧
    (∀ (tr : List Ev4) (p t : Nat) (lib : LibResult),
      (run4 init4 tr).connectionStatus = Status4.waiting_qr →
      sendHandler (run4 init4 tr) (some p) (some t) lib =
        ({ code := 503, ok := false }, run4 init4 tr)) ∧
    (∀ (s : St4) (p t e2 : Nat), s.isConnected = true → s.isReady = true →
      sendHandler s (some p) (some t) (LibResult.err e2) =
        ({ code := 500, ok := false }, s)) := by
  refine ⟨?_, ?_, ?_, ?_, ?_⟩
  · intro s t lib
    cases t <;> rfl
  · intro s p lib
    rfl
  · intro tr p t hready
    have hinv := inv4_run tr init4 (by decide)
    simp only [inv4, Bool.and_eq_true, Bool.or_eq_true, Bool.not_eq_true'] at hinv
    have hconn : (run4 init4 tr).isConnected = true := by
      rcases hinv.1.1 with h | h
      · rw [hready] at h
        exact absurd h (by decide)
      · exact h
    refine ⟨?_, rfl⟩
    simp only [sendHandler]
    rw [if_neg]
    intro hcon
    rcases hcon with h | h
    · rw [hconn] at h
      exact absurd h (by decide)
    · rw [hready] at h
      exact absurd h (by decide)
  · intro tr p t lib hqr
    have hq := qrInv_run tr init4 (by decide)
    simp only [qrInv, Bool.or_eq_true, Bool.not_eq_true', decide_eq_false_iff_not] at hq
    have hconn : (run4 init4 tr).isConnected = false := by
      rcases hq with h | h
      · exact absurd hqr h
      · exact h
    simp only [sendHandler]
    rw [if_pos (Or.inl hconn)]
  · intro s p t e2 hc hr
    simp only [sendHandler]
    rw [if_neg]
    intro hcon
    rcases hcon with h | h
    · rw [hc] at h
      exact absurd h (by decide)
    · rw [hr] at h
      exact absurd h (by decide)

/-- C6 witness: concrete reachable ready state (`open` then the ready
timeout), concrete reachable `waiting_qr` state, and a missing-parameter
request, each evaluated. -/
theorem c6_send_handler_witness :
    (sendHandler (run4 init4 [Ev4.evOpen, Ev4.readyTimeout]) (some 7) (some 8)
        LibResult.ok =
      ({ code := 200, ok := true },
        { run4 init4 [Ev4.evOpen, Ev4.readyTimeout] with
            messages :=
              mkSent 7 8 :: (run4 init4 [Ev4.evOpen, Ev4.readyTimeout]).messages })) ∧
    (sendHandler (run4 init4 [Ev4.evQR]) (some 7) (some 8) LibResult.ok =
      ({ code := 503, ok := false }, run4 init4 [Ev4.evQR])) ∧
    (sendHandler (run4 init4 []) none (some 8) LibResult.ok =
      ({ code := 400, ok := false }, run4 init4 [])) :=
  ⟨(c6_send_handler.2.2.1 [Ev4.evOpen, Ev4.readyTimeout] 7 8 (by decide)).1,
   c6_send_handler.2.2.2.1 [Ev4.evQR] 7 8 LibResult.ok (by decide),
   c6_send_handler.1 (run4 init4 []) (some 8) LibResult.ok⟩

/-- C8: the claimed chain `isReady ⇒ isAuthenticated ⇒ isConnected` is the
spec's stated intent, but the v4.3.0 `close` handler clears `isConnected`
and `isReady` without clearing `isAuthenticated`: after `open` followed by
a transient `close` (code 408) the observable snapshot has
`isAuthenticated = true` while `isConnected = false`, violating
`isAuthenticated ⇒ isConnected`. -/
theorem c8_close_leaves_isAuthenticated :
    (run4 init4 [Ev4.evOpen, Ev4.evClose 408]).isAuthenticated = true ∧
    (run4 init4 [Ev4.evOpen, Ev4.evClose 408]).isConnected = false ∧
    inv4 (run4 init4 [Ev4.evOpen, Ev4.evClose 408]) = true := by
  exact ⟨by decide, by decide, by decide⟩

/-- C9: the servidor.js message log is a fixed-capacity ring: the capacity
`MAX_MESSAGES` is 100 (within the spec's 100-500 window); along every
event trace from boot the log length never exceeds the capacity; each
append puts the new record at the head and removes at most the oldest
(last) record, and removes nothing while under capacity; appends whose
timestamps respect event order keep the log in most-recent-first order;
and the `GET /messages` read handler leaves the state untouched. -/
theorem c9_message_log_ring :
    (100 ≤ MAX_MESSAGES ∧ MAX_MESSAGES ≤ 500) ∧
    (∀ tr : List Ev, (run boot tr).messages.length ≤ MAX_MESSAGES) ∧
    (∀ (log : List MsgRec) (r : MsgRec),
      appendMessage log r = r :: log ∨ appendMessage log r = r :: log.dropLast) ∧
    (∀ (log : List MsgRec) (r : MsgRec), log.length < MAX_MESSAGES →
      appendMessage log r = r :: log) ∧
    (∀ (log : List MsgRec) (r : MsgRec), sortedDesc log →
      (∀ x ∈ log, x.timestamp ≤ r.timestamp) → sortedDesc (appendMessage log r)) ∧
    (∀ s : St, (getMessagesHandler s).2 = s) := by
  refine ⟨by decide, ?_, appendMessage_eq, appendMessage_small,
    appendMessage_sorted, fun s => rfl⟩
  intro tr
  exact messages_length_run tr boot (by decide)

/-- C9 witness: the capped/uncapped append shapes and the trace bound,
evaluated at concrete inputs. -/
theorem c9_message_log_ring_witness :
    (appendMessage [] mr0 = [mr0]) ∧ sortedDesc (appendMessage [] mr0) ∧
    (run boot [Ev.setupOk 0]).messages.length ≤ MAX_MESSAGES :=
  ⟨c9_message_log_ring.2.2.2.1 [] mr0 (by decide),
   c9_message_log_ring.2.2.2.2.1 [] mr0 (by simp [sortedDesc]) (by simp),
   c9_message_log_ring.2.1 [Ev.setupOk 0]⟩

theorem closeUpdate_isConnecting (s : St) (code : Nat) :
    (closeUpdate s code).isConnecting = false := by
  simp only [closeUpdate]
  split_ifs <;> rfl

theorem connInv_boot : connInv boot := ⟨by decide, by decide⟩

theorem connInv_step (s : St) (e : Ev) (h : connInv s) (he : autoEv e = true) :
    connInv (step s e) := by
  obtain ⟨hb, hg⟩ := h
  unfold opBudget at hb
  unfold inFlight at hg
  cases e with
  | fireTimer =>
    cases hpt : s.pendingTimers with
    | nil => exact ⟨by simpa [step, hpt, opBudget] using hb, by simpa [step, hpt, inFlight] using hg⟩
    | cons d rest =>
      have hlen : s.pendingTimers.length = rest.length + 1 := by
        rw [hpt]
        rfl
      have hic : s.isConnecting = false := by
        cases hcv : s.isConnecting
        · rfl
        · exact absurd (hg.mp hcv) (by omega)
      simp only [step, hpt]
      unfold connectWhatsApp
      simp only [hic, Bool.false_eq_true, if_false]
      constructor
      · simp only [opBudget, List.length_cons]
        omega
      · simp only [inFlight, List.length_cons]
        constructor
        · intro
          omega
        · intro
          trivial
  | setupOk a =>
    simp only [step]
    by_cases hm : a ∈ s.pendingSetups
    · rw [if_pos hm]
      have hl := List.length_erase_of_mem hm
      have hp := List.length_pos_of_mem hm
      constructor
      · simp only [opBudget, List.length_cons, hl]
        omega
      · simp only [inFlight, List.length_cons, hl]
        rw [hg]
        omega
    · rw [if_neg hm]
      exact ⟨hb, hg⟩
  | setupThrow a =>
    simp only [step]
    by_cases hm : a ∈ s.pendingSetups
    · rw [if_pos hm]
      have hl := List.length_erase_of_mem hm
      have hp := List.length_pos_of_mem hm
      constructor
      · simp only [opBudget, List.length_cons, hl]
        omega
      · simp only [inFlight, hl]
        constructor
        · intro hcon
          exact absurd hcon (by simp)
        · intro hcon
          exact absurd hcon (by omega)
    · rw [if_neg hm]
      exact ⟨hb, hg⟩
  | credsUpdate a =>
    simp only [step]
    split_ifs
    · exact ⟨by simpa [opBudget] using hb, by simpa [inFlight] using hg⟩
    · exact ⟨hb, hg⟩
  | evQR a q =>
    simp only [step]
    split_ifs with hm
    · unfold qrUpdate
      split_ifs
      · exact ⟨by simpa [opBudget] using hb, by simpa [inFlight] using hg⟩
      · exact ⟨hb, hg⟩
    · exact ⟨hb, hg⟩
  | evOpen a =>
    simp only [step]
    by_cases hm : a ∈ s.liveSocks
    · rw [if_pos hm]
      have hl := List.length_erase_of_mem hm
      have hp := List.length_pos_of_mem hm
      unfold openUpdate
      constructor
      · simp only [opBudget, List.length_cons, hl]
        omega
      · simp only [inFlight, hl]
        constructor
        · intro hcon
          exact absurd hcon (by simp)
        · intro hcon
          exact absurd hcon (by omega)
    · rw [if_neg hm]
      exact ⟨hb, hg⟩
  | evClose a code =>
    simp only [step]
    by_cases hm : a ∈ s.liveSocks
    · rw [if_pos hm]
      have hl := List.length_erase_of_mem hm
      have hp := List.length_pos_of_mem hm
      unfold closeUpdate
      split_ifs with hf ht
      · constructor
        · simp only [opBudget, List.length_cons, hl]
          omega
        · simp only [inFlight, hl]
          constructor
          · intro hcon
            exact absurd hcon (by simp)
          · intro hcon
            exact absurd hcon (by omega)
      · constructor
        · simp only [opBudget, List.length_cons, hl]
          omega
        · simp only [inFlight, hl]
          constructor
          · intro hcon
            exact absurd hcon (by simp)
          · intro hcon
            exact absurd hcon (by omega)
      · exact absurd (by omega : code = loggedOut) (by simpa using fun hcon => hf (Or.inl hcon))
    · rw [if_neg hm]
      by_cases hm2 : a ∈ s.openSocks
      · rw [if_pos hm2]
        have hl := List.length_erase_of_mem hm2
        have hp := List.length_pos_of_mem hm2
        unfold closeUpdate
        split_ifs with hf ht
        · constructor
          · simp only [opBudget, List.length_cons, hl]
            omega
          · simp only [inFlight, hl]
            constructor
            · intro hcon
              exact absurd hcon (by simp)
            · intro hcon
              exact absurd hcon (by omega)
        · constructor
          · simp only [opBudget, List.length_cons, hl]
            omega
          · simp only [inFlight, hl]
            constructor
            · intro hcon
              exact absurd hcon (by simp)
            · intro hcon
              exact absurd hcon (by omega)
        · exact absurd (by omega : code = loggedOut) (by simpa using fun hcon => hf (Or.inl hcon))
      · rw [if_neg hm2]
        exact ⟨hb, hg⟩
  | evUpsert a t msgs =>
    simp only [step]
    split_ifs
    · unfold upsertUpdate
      exact ⟨by simpa [opBudget] using hb, by simpa [inFlight] using hg⟩
    · exact ⟨hb, hg⟩
  | httpLogout => simp [autoEv] at he
  | httpForceReset => simp [autoEv] at he

theorem connInv_run (tr : List Ev) :
    ∀ s : St, connInv s → (∀ e ∈ tr, autoEv e = true) → connInv (run s tr) := by
  induction tr with
  | nil =>
    intro s h _
    simpa [run] using h
  | cons e rest ih =>
    intro s h ha
    have h1 : autoEv e = true := ha e (by simp)
    have h2 := connInv_step s e h h1
    simpa [run] using ih (step s e) h2 (fun x hx => ha x (by simp [hx]))

theorem gate_release_terminal (s : St) (e : Ev) (h : connInv s)
    (he : autoEv e = true) (hgate : s.isConnecting = true)
    (hrel : (step s e).isConnecting = false) : terminalFor s e = true := by
  obtain ⟨hb, hg⟩ := h
  unfold opBudget at hb
  have hin : s.pendingSetups.length + s.liveSocks.length ≠ 0 := hg.mp hgate
  cases e with
  | fireTimer =>
    have hte : s.pendingTimers = [] := by
      have : s.pendingTimers.length = 0 := by omega
      exact List.length_eq_zero.mp this
    rw [show step s Ev.fireTimer = s by simp [step, hte]] at hrel
    rw [hgate] at hrel
    exact absurd hrel (by decide)
  | setupOk a =>
    by_cases hm : a ∈ s.pendingSetups
    · have : (step s (Ev.setupOk a)).isConnecting = s.isConnecting := by
        simp [step, hm]
      rw [this, hgate] at hrel
      exact absurd hrel (by decide)
    · rw [show step s (Ev.setupOk a) = s by simp [step, hm]] at hrel
      rw [hgate] at hrel
      exact absurd hrel (by decide)
  | setupThrow a =>
    by_cases hm : a ∈ s.pendingSetups
    · simp [terminalFor, hm]
    · rw [show step s (Ev.setupThrow a) = s by simp [step, hm]] at hrel
      rw [hgate] at hrel
      exact absurd hrel (by decide)
  | credsUpdate a =>
    have : (step s (Ev.credsUpdate a)).isConnecting = s.isConnecting := by
      simp only [step]
      split_ifs <;> rfl
    rw [this, hgate] at hrel
    exact absurd hrel (by decide)
  | evQR a q =>
    have : (step s (Ev.evQR a q)).isConnecting = s.isConnecting := by
      simp only [step]
      split_ifs with h1
      · unfold qrUpdate
        split_ifs <;> rfl
      · rfl
    rw [this, hgate] at hrel
    exact absurd hrel (by decide)
  | evOpen a =>
    by_cases hm : a ∈ s.liveSocks
    · simp [terminalFor, hm]
    · rw [show step s (Ev.evOpen a) = s by simp [step, hm]] at hrel
      rw [hgate] at hrel
      exact absurd hrel (by decide)
  | evClose a code =>
    by_cases hm : a ∈ s.liveSocks
    · simp [terminalFor, hm]
    · by_cases hm2 : a ∈ s.openSocks
      · simp [terminalFor, hm2]
      · rw [show step s (Ev.evClose a code) = s by simp [step, hm, hm2]] at hrel
        rw [hgate] at hrel
        exact absurd hrel (by decide)
  | evUpsert a t msgs =>
    have : (step s (Ev.evUpsert a t msgs)).isConnecting = s.isConnecting := by
      simp only [step]
      split_ifs <;> rfl
    rw [this, hgate] at hrel
    exact absurd hrel (by decide)
  | httpLogout => simp [autoEv] at he
  | httpForceReset => simp [autoEv] at he

theorem terminal_releases (s : St) (e : Ev) (ht : terminalFor s e = true) :
    (step s e).isConnecting = false := by
  cases e with
  | fireTimer => simp [terminalFor] at ht
  | setupOk a => simp [terminalFor] at ht
  | setupThrow a =>
    simp only [terminalFor, decide_eq_true_eq] at ht
    simp [step, ht]
  | credsUpdate a => simp [terminalFor] at ht
  | evQR a q => simp [terminalFor] at ht
  | evOpen a =>
    simp only [terminalFor, decide_eq_true_eq] at ht
    simp [step, ht, openUpdate]
  | evClose a code =>
    simp only [terminalFor, Bool.or_eq_true, decide_eq_true_eq] at ht
    by_cases hm : a ∈ s.liveSocks
    · simp only [step, if_pos hm]
      exact closeUpdate_isConnecting _ code
    · rcases ht with h | h
      · exact absurd h hm
      · simp only [step, if_neg hm, if_pos h]
        exact closeUpdate_isConnecting _ code
  | evUpsert a t msgs => simp [terminalFor] at ht
  | httpLogout => simp [terminalFor] at ht
  | httpForceReset => simp [terminalFor] at ht

theorem authFiles_creation (s : St) (e : Ev)
    (hpost : (step s e).authFiles = true) :
    s.authFiles = true ∨ ∃ a, e = Ev.credsUpdate a := by
  cases e with
  | fireTimer =>
    left
    cases hpt : s.pendingTimers with
    | nil => simpa [step, hpt] using hpost
    | cons d rest =>
      simp only [step, hpt] at hpost
      unfold connectWhatsApp at hpost
      split_ifs at hpost <;> simpa using hpost
  | setupOk a =>
    left
    simp only [step] at hpost
    split_ifs at hpost <;> simpa using hpost
  | setupThrow a =>
    left
    simp only [step] at hpost
    split_ifs at hpost <;> simpa using hpost
  | credsUpdate a => exact Or.inr ⟨a, rfl⟩
  | evQR a q =>
    left
    simp only [step] at hpost
    split_ifs at hpost with h1
    · unfold qrUpdate at hpost
      split_ifs at hpost <;> simpa using hpost
    · simpa using hpost
  | evOpen a =>
    left
    simp only [step] at hpost
    split_ifs at hpost <;> simpa [openUpdate] using hpost
  | evClose a code =>
    left
    simp only [step] at hpost
    split_ifs at hpost with h1 h2
    · unfold closeUpdate at hpost
      split_ifs at hpost <;> simpa using hpost
    · unfold closeUpdate at hpost
      split_ifs at hpost <;> simpa using hpost
    · simpa using hpost
  | evUpsert a t msgs =>
    left
    simp only [step] at hpost
    split_ifs at hpost
    · simpa [upsertUpdate] using hpost
    · simpa using hpost
  | httpLogout =>
    left
    simp only [step] at hpost
    exact absurd hpost (by decide)
  | httpForceReset =>
    left
    simp only [step] at hpost
    exact absurd hpost (by decide)

/-- C1 counterexample: at boot the gate is held (`isConnecting = true`) and
attempt 0 is in flight inside its setup awaits; a `POST /force-reset`
arriving there releases the gate even though it is not a terminal outcome
of attempt 0 (there is no socket yet, so nothing is detached), and the
continuation — the reset's scheduled timer admitting attempt 1 while
attempt 0's setup still completes — ends with two sockets simultaneously
live with listeners attached: two `connect()` executions overlapping their
side effects against the library. -/
theorem c1_force_reset_breaks_gate :
    boot.isConnecting = true ∧ boot.pendingSetups = [0] ∧
    (step boot Ev.httpForceReset).isConnecting = false ∧
    (step boot Ev.httpForceReset).pendingSetups = [0] ∧
    terminalFor boot Ev.httpForceReset = false ∧
    (run boot [Ev.httpForceReset, Ev.fireTimer, Ev.setupOk 0,
        Ev.setupOk 1]).liveSocks = [1, 0] := by
  exact ⟨by decide, by decide, by decide, by decide, by decide, by decide⟩

/-- C1 amended: along every trace of automatic triggers (library events,
scheduled reconnects, setup completions — no HTTP logout/force-reset), at
most one attempt is in flight and at most one socket has listeners
attached, a `connectWhatsApp` call while the gate is held is a no-op, the
gate is released only by a terminal outcome of the in-flight attempt
(setup exception, `open`, or `close`), and every terminal outcome does
release it. -/
theorem c1_gate_automatic_triggers (tr : List Ev)
    (h : ∀ e ∈ tr, autoEv e = true) :
    connInv (run boot tr) ∧
    inFlight (run boot tr) ≤ 1 ∧
    (run boot tr).liveSocks.length + (run boot tr).openSocks.length ≤ 1 ∧
    (∀ s : St, s.isConnecting = true → connectWhatsApp s = s) ∧
    (∀ e : Ev, autoEv e = true → (run boot tr).isConnecting = true →
      (step (run boot tr) e).isConnecting = false →
      terminalFor (run boot tr) e = true) ∧
    (∀ e : Ev, terminalFor (run boot tr) e = true →
      (step (run boot tr) e).isConnecting = false) := by
  have hinv := connInv_run tr boot connInv_boot h
  obtain ⟨hb, hg⟩ := hinv
  refine ⟨⟨hb, hg⟩, ?_, ?_, ?_, ?_, ?_⟩
  · unfold opBudget at hb
    unfold inFlight
    omega
  · unfold opBudget at hb
    omega
  · intro s hs
    unfold connectWhatsApp
    simp [hs]
  · intro e he hgate hrel
    exact gate_release_terminal _ e ⟨hb, hg⟩ he hgate hrel
  · intro e ht
    exact terminal_releases _ e ht

/-- C1 witness: the amended theorem applied to the concrete automatic trace
in which the boot attempt's setup completes. -/
theorem c1_gate_automatic_triggers_witness :
    connInv (run boot [Ev.setupOk 0]) ∧
    inFlight (run boot [Ev.setupOk 0]) ≤ 1 ∧
    (run boot [Ev.setupOk 0]).liveSocks.length +
      (run boot [Ev.setupOk 0]).openSocks.length ≤ 1 ∧
    (∀ s : St, s.isConnecting = true → connectWhatsApp s = s) ∧
    (∀ e : Ev, autoEv e = true → (run boot [Ev.setupOk 0]).isConnecting = true →
      (step (run boot [Ev.setupOk 0]) e).isConnecting = false →
      terminalFor (run boot [Ev.setupOk 0]) e = true) ∧
    (∀ e : Ev, terminalFor (run boot [Ev.setupOk 0]) e = true →
      (step (run boot [Ev.setupOk 0]) e).isConnecting = false) := by
  apply c1_gate_automatic_triggers
  intro e hm
  rw [List.mem_singleton] at hm
  subst hm
  rfl

theorem evClose_shape (s : St) (a code : Nat)
    (hmem : a ∈ s.liveSocks ∨ a ∈ s.openSocks) :
    ∃ s1 : St, step s (Ev.evClose a code) = closeUpdate s1 code ∧
      s1.reconnectAttempts = s.reconnectAttempts ∧
      s1.pendingTimers = s.pendingTimers := by
  by_cases hm : a ∈ s.liveSocks
  · refine ⟨{ s with liveSocks := s.liveSocks.erase a, closedSocks := a :: s.closedSocks }, ?_, rfl, rfl⟩
    simp [step, hm]
  · rcases hmem with hx | hx
    · exact absurd hx hm
    · refine ⟨{ s with openSocks := s.openSocks.erase a, closedSocks := a :: s.closedSocks }, ?_, rfl, rfl⟩
      simp [step, hm, hx]

theorem transient_close_effect (s : St) (a code : Nat)
    (h1 : code ≠ loggedOut) (h2 : code ≠ badSession)
    (hmem : a ∈ s.liveSocks ∨ a ∈ s.openSocks) :
    (step s (Ev.evClose a code)).reconnectAttempts = s.reconnectAttempts + 1 ∧
    (step s (Ev.evClose a code)).pendingTimers =
      reconnectDelay s.reconnectAttempts :: s.pendingTimers := by
  obtain ⟨s1, he, hra, hptx⟩ := evClose_shape s a code hmem
  rw [he]
  unfold closeUpdate
  rw [if_neg (fun hcon => hcon.elim h1 h2), if_pos h1]
  exact ⟨by rw [hra], by rw [hra, hptx]⟩

/-- C2 counterexample: a transient close (code 408) leaves
`reconnectAttempts = 1`; the subsequent fatal close (code 401 = loggedOut)
clears the session, resets the QR budget and schedules the fixed 2000 ms
reconnect, but leaves `reconnectAttempts` at 1 instead of resetting it to
0 as the claim states. -/
theorem c2_counterexample :
    (run boot [Ev.setupOk 0, Ev.evClose 0 408, Ev.fireTimer, Ev.setupOk 1,
        Ev.evClose 1 loggedOut]).reconnectAttempts = 1 ∧
    (run boot [Ev.setupOk 0, Ev.evClose 0 408, Ev.fireTimer, Ev.setupOk 1,
        Ev.evClose 1 loggedOut]).authFiles = false ∧
    (run boot [Ev.setupOk 0, Ev.evClose 0 408, Ev.fireTimer, Ev.setupOk 1,
        Ev.evClose 1 loggedOut]).hasSession = false ∧
    (run boot [Ev.setupOk 0, Ev.evClose 0 408, Ev.fireTimer, Ev.setupOk 1,
        Ev.evClose 1 loggedOut]).pendingTimers = [2000] := by
  exact ⟨by decide, by decide, by decide, by decide⟩

/-- C2 amended: for every close whose reason is fatal
(`loggedOut` = 401, which is also the unauthorized code, or `badSession`),
the handler wipes the auth folder (so `exists()` is false immediately
after handling), sets `hasSession := false`, clears the QR payload, resets
the QR budget `qrAttempts` (not `reconnectAttempts`, which is left
unchanged), enters `disconnected`, and schedules reconnection after the
fixed 2000 ms delay; the only step that re-creates credential files is a
`creds.update` of a later attempt's socket, and a fired timer from a
released gate re-enters `connecting`. -/
theorem c2_fatal_close (s : St) (a code : Nat)
    (hcode : code = loggedOut ∨ code = badSession)
    (hmem : a ∈ s.liveSocks ∨ a ∈ s.openSocks) :
    (step s (Ev.evClose a code)).authFiles = false ∧
    (step s (Ev.evClose a code)).hasSession = false ∧
    (step s (Ev.evClose a code)).qrAttempts = 0 ∧
    (step s (Ev.evClose a code)).qrCodeData = none ∧
    (step s (Ev.evClose a code)).status = Status.disconnected ∧
    (step s (Ev.evClose a code)).reconnectAttempts = s.reconnectAttempts ∧
    (step s (Ev.evClose a code)).pendingTimers = 2000 :: s.pendingTimers ∧
    (∀ (s2 : St) (e : Ev), (step s2 e).authFiles = true →
      s2.authFiles = true ∨ ∃ b, e = Ev.credsUpdate b) ∧
    (∀ s2 : St, s2.isConnecting = false → ∀ d rest,
      s2.pendingTimers = d :: rest →
      (step s2 Ev.fireTimer).status = Status.connecting) := by
  obtain ⟨s1, he, hra, hptx⟩ := evClose_shape s a code hmem
  rw [he]
  unfold closeUpdate
  rw [if_pos hcode]
  refine ⟨rfl, rfl, rfl, rfl, rfl, hra, by rw [hptx], authFiles_creation, ?_⟩
  intro s2 hic d rest hpt
  simp only [step, hpt]
  unfold connectWhatsApp
  simp [hic]

/-- C2 witness: the amended theorem applied to the state in which the boot
attempt's socket is live, closing with the loggedOut code. -/
theorem c2_fatal_close_witness :
    (step (run boot [Ev.setupOk 0]) (Ev.evClose 0 loggedOut)).authFiles = false ∧
    (step (run boot [Ev.setupOk 0]) (Ev.evClose 0 loggedOut)).reconnectAttempts =
      (run boot [Ev.setupOk 0]).reconnectAttempts ∧
    (step (run boot [Ev.setupOk 0]) (Ev.evClose 0 loggedOut)).pendingTimers =
      2000 :: (run boot [Ev.setupOk 0]).pendingTimers := by
  have h := c2_fatal_close (run boot [Ev.setupOk 0]) 0 loggedOut (Or.inl rfl)
    (Or.inl (by decide))
  exact ⟨h.1, h.2.2.2.2.2.1, h.2.2.2.2.2.2.1⟩

/-- C3 counterexample: the code's backoff is `min(5000 + 2000*attempt,
30000)`, which no constants `base`, `cap` can write as
`min(base*attempt, cap)` (at attempt 0 the code waits 5000 ms while the
claimed formula gives 0); moreover after one transient close
(`reconnectAttempts = 1`, `ready` never reached) a `force-reset` resets
the counter to 0 while the status is `disconnected`, contradicting "reset
to exactly 0 upon entering ready (and only then)". -/
theorem c3_counterexample :
    reconnectDelay 0 = 5000 ∧
    (¬ ∃ base cap : Nat, ∀ n, reconnectDelay n = min (base * n) cap) ∧
    (run boot [Ev.setupOk 0, Ev.evClose 0 408]).reconnectAttempts = 1 ∧
    (run boot [Ev.setupOk 0, Ev.evClose 0 408]).pendingTimers = [5000] ∧
    (run boot [Ev.setupOk 0, Ev.evClose 0 408,
        Ev.httpForceReset]).reconnectAttempts = 0 ∧
    (run boot [Ev.setupOk 0, Ev.evClose 0 408,
        Ev.httpForceReset]).status = Status.disconnected := by
  refine ⟨by decide, ?_, by decide, by decide, by decide, by decide⟩
  rintro ⟨base, cap, hf⟩
  have h0 := hf 0
  rw [Nat.mul_zero, Nat.zero_min] at h0
  have h5 : reconnectDelay 0 = 5000 := by decide
  rw [h5] at h0
  exact absurd h0 (by decide)

/-- C3 amended: for every close with a transient code (neither 401 nor
500) the handler schedules reconnection after
`min(5000 + 2000*attempt, 30000)` milliseconds computed from the
pre-increment counter, and increments the counter by exactly 1; the
counter is reset to 0 on the `open` event, and also by `force-reset` (so
not only on reaching the connected state). -/
theorem c3_transient_close (s : St) (a code : Nat)
    (h1 : code ≠ loggedOut) (h2 : code ≠ badSession)
    (hmem : a ∈ s.liveSocks ∨ a ∈ s.openSocks) :
    (step s (Ev.evClose a code)).reconnectAttempts = s.reconnectAttempts + 1 ∧
    (step s (Ev.evClose a code)).pendingTimers =
      reconnectDelay s.reconnectAttempts :: s.pendingTimers ∧
    reconnectDelay s.reconnectAttempts =
      min (5000 + s.reconnectAttempts * 2000) 30000 ∧
    (∀ b, b ∈ s.liveSocks → (step s (Ev.evOpen b)).reconnectAttempts = 0) ∧
    (step s Ev.httpForceReset).reconnectAttempts = 0 := by
  obtain ⟨hinc, hpt⟩ := transient_close_effect s a code h1 h2 hmem
  refine ⟨hinc, hpt, rfl, ?_, ?_⟩
  · intro b hb
    simp [step, hb, openUpdate]
  · cases hs : s.sock <;> simp [step, hs]

/-- C3 witness: the amended theorem applied to the live boot socket closing
with the transient code 408. -/
theorem c3_transient_close_witness :
    (step (run boot [Ev.setupOk 0]) (Ev.evClose 0 408)).reconnectAttempts =
      (run boot [Ev.setupOk 0]).reconnectAttempts + 1 ∧
    (step (run boot [Ev.setupOk 0]) (Ev.evClose 0 408)).pendingTimers =
      reconnectDelay (run boot [Ev.setupOk 0]).reconnectAttempts ::
        (run boot [Ev.setupOk 0]).pendingTimers := by
  have h := c3_transient_close (run boot [Ev.setupOk 0]) 0 408 (by decide)
    (by decide) (Or.inl (by decide))
  exact ⟨h.1, h.2.1⟩

/-- C4 counterexample: after a transient close one reconnect timer (5000
ms) is pending; `force-reset` then schedules its own 1000 ms timer with no
`clearTimeout` anywhere, so two reconnect tasks are pending system-wide
and the operator action cancelled nothing. -/
theorem c4_counterexample :
    (run boot [Ev.setupOk 0, Ev.evClose 0 408]).pendingTimers = [5000] ∧
    (run boot [Ev.setupOk 0, Ev.evClose 0 408,
        Ev.httpForceReset]).pendingTimers = [1000, 5000] ∧
    (run boot [Ev.setupOk 0, Ev.evClose 0 408,
        Ev.httpForceReset]).pendingTimers.length = 2 := by
  exact ⟨by decide, by decide, by decide⟩

/-- C4 amended: reconnect scheduling is additive, not single-slot: a
transient close pushes a new timer on top of whatever is pending, and the
operator actions `force-reset` and `logout` likewise push their own 1000
ms timer without cancelling anything; each fired timer consumes exactly
one pending entry and runs `connectWhatsApp`, whose admission gate is what
bounds the number of concurrent attempts. -/
theorem c4_additive_scheduling (s : St) (a code : Nat)
    (h1 : code ≠ loggedOut) (h2 : code ≠ badSession)
    (hmem : a ∈ s.liveSocks ∨ a ∈ s.openSocks) :
    (step s (Ev.evClose a code)).pendingTimers =
      reconnectDelay s.reconnectAttempts :: s.pendingTimers ∧
    (step s Ev.httpForceReset).pendingTimers = 1000 :: s.pendingTimers ∧
    (step s Ev.httpLogout).pendingTimers = 1000 :: s.pendingTimers ∧
    (∀ d rest, s.pendingTimers = d :: rest →
      step s Ev.fireTimer = connectWhatsApp { s with pendingTimers := rest }) := by
  refine ⟨(transient_close_effect s a code h1 h2 hmem).2, ?_, rfl, ?_⟩
  · cases hs : s.sock <;> simp [step, hs]
  · intro d rest hpt
    simp [step, hpt]

/-- C4 witness: the amended theorem applied to the live boot socket and the
transient code 408. -/
theorem c4_additive_scheduling_witness :
    (step (run boot [Ev.setupOk 0]) (Ev.evClose 0 408)).pendingTimers =
      reconnectDelay (run boot [Ev.setupOk 0]).reconnectAttempts ::
        (run boot [Ev.setupOk 0]).pendingTimers ∧
    (step (run boot [Ev.setupOk 0]) Ev.httpForceReset).pendingTimers =
      1000 :: (run boot [Ev.setupOk 0]).pendingTimers := by
  have h := c4_additive_scheduling (run boot [Ev.setupOk 0]) 0 408 (by decide)
    (by decide) (Or.inl (by decide))
  exact ⟨h.1, h.2.1⟩

/-- C5 counterexample: `force-reset` issued at boot, while
`status = connecting` but before the in-flight attempt has created its
socket (`sock = null`), detaches nothing; the superseded attempt then
finishes its setup, attaches fresh listeners, and its subsequent `open`
event mutates `ConnectionState` (`isConnected` flips to true, status
becomes `connected`). -/
theorem c5_counterexample :
    boot.status = Status.connecting ∧
    boot.sock = none ∧
    (run boot [Ev.httpForceReset]).isConnected = false ∧
    (run boot [Ev.httpForceReset]).status = Status.disconnected ∧
    (run boot [Ev.httpForceReset, Ev.setupOk 0, Ev.evOpen 0]).isConnected = true ∧
    (run boot [Ev.httpForceReset, Ev.setupOk 0, Ev.evOpen 0]).status =
      Status.connected := by
  exact ⟨by decide, by decide, by decide, by decide, by decide, by decide⟩

/-- C5 amended: when `force-reset` arrives after the in-flight attempt has
already created and attached its socket handle (`sock = some a`), the
handler does detach that handle's listeners before discarding it
(`removeAllListeners`, then `end`, then `sock = null`), and every
subsequent `qr`/`open`/`close`/`messages.upsert` event of the superseded
handle is a complete no-op on the state; the guarantee fails only for a
`force-reset` that lands inside the attempt's setup awaits (see the
counterexample). -/
theorem c5_detach_when_socket_assigned (s : St) (a : Nat)
    (hsock : s.sock = some a) :
    a ∉ (step s Ev.httpForceReset).liveSocks ∧
    a ∉ (step s Ev.httpForceReset).openSocks ∧
    (step s Ev.httpForceReset).sock = none ∧
    (∀ q, step (step s Ev.httpForceReset) (Ev.evQR a q) =
      step s Ev.httpForceReset) ∧
    (step (step s Ev.httpForceReset) (Ev.evOpen a) =
      step s Ev.httpForceReset) ∧
    (∀ c, step (step s Ev.httpForceReset) (Ev.evClose a c) =
      step s Ev.httpForceReset) ∧
    (∀ t ms, step (step s Ev.httpForceReset) (Ev.evUpsert a t ms) =
      step s Ev.httpForceReset) := by
  have hlive : a ∉ (step s Ev.httpForceReset).liveSocks := by
    simp [step, hsock, List.mem_filter]
  have hopen : a ∉ (step s Ev.httpForceReset).openSocks := by
    simp [step, hsock, List.mem_filter]
  refine ⟨hlive, hopen, by simp [step, hsock], ?_, ?_, ?_, ?_⟩
  · intro q
    generalize hX : step s Ev.httpForceReset = X at hlive
    simp only [step]
    rw [if_neg hlive]
  · generalize hX : step s Ev.httpForceReset = X at hlive
    simp only [step]
    rw [if_neg hlive]
  · intro c
    generalize hX : step s Ev.httpForceReset = X at hlive hopen
    simp only [step]
    rw [if_neg hlive, if_neg hopen]
  · intro t ms
    generalize hX : step s Ev.httpForceReset = X at hopen
    simp only [step]
    rw [if_neg hopen]

/-- C5 witness: the amended theorem applied to the state in which the boot
attempt's socket 0 is assigned and live. -/
theorem c5_detach_when_socket_assigned_witness :
    0 ∉ (step (run boot [Ev.setupOk 0]) Ev.httpForceReset).liveSocks ∧
    step (step (run boot [Ev.setupOk 0]) Ev.httpForceReset) (Ev.evOpen 0) =
      step (run boot [Ev.setupOk 0]) Ev.httpForceReset := by
  have h := c5_detach_when_socket_assigned (run boot [Ev.setupOk 0]) 0 (by decide)
  exact ⟨h.1, h.2.2.2.2.1⟩

theorem qrAttempts_le_step (s : St) (e : Ev)
    (h : s.qrAttempts ≤ MAX_QR_ATTEMPTS) :
    (step s e).qrAttempts ≤ MAX_QR_ATTEMPTS := by
  cases e with
  | fireTimer =>
    cases hpt : s.pendingTimers with
    | nil => simpa [step, hpt] using h
    | cons d rest =>
      simp only [step, hpt]
      unfold connectWhatsApp
      split_ifs <;> simpa using h
  | setupOk a =>
    simp only [step]
    split_ifs <;> simpa using h
  | setupThrow a =>
    simp only [step]
    split_ifs <;> simpa using h
  | credsUpdate a =>
    simp only [step]
    split_ifs <;> simpa using h
  | evQR a q =>
    simp only [step]
    split_ifs with hm
    · unfold qrUpdate
      split_ifs with hq
      · simp only [MAX_QR_ATTEMPTS] at hq ⊢
        omega
      · simpa using h
    · simpa using h
  | evOpen a =>
    simp only [step]
    split_ifs with hm
    · simp [openUpdate]
    · simpa using h
  | evClose a code =>
    simp only [step]
    split_ifs with h1 h2 <;> try simpa using h
    all_goals
      unfold closeUpdate
      split_ifs <;> simp <;> simpa using h
  | evUpsert a t msgs =>
    simp only [step]
    split_ifs
    · simpa [upsertUpdate] using h
    · simpa using h
  | httpLogout => simp [step]
  | httpForceReset => simp [step]

theorem qrAttempts_le_run (tr : List Ev) :
    ∀ s : St, s.qrAttempts ≤ MAX_QR_ATTEMPTS →
      (run s tr).qrAttempts ≤ MAX_QR_ATTEMPTS := by
  induction tr with
  | nil =>
    intro s h
    simpa [run] using h
  | cons e rest ih =>
    intro s h
    simpa [run] using ih (step s e) (qrAttempts_le_step s e h)

/-- C7 counterexample: the six-QR trace reaches the budget (5) and stays at
`waiting_qr`; the sixth QR event is dropped with the state completely
unchanged, so exceeding the budget does not surface a `status = error` (and
servidor.js has no `lastError` field at all) — the over-budget branch of
the claim is false. -/
theorem c7_counterexample :
    (run boot c7trace).qrAttempts = 5 ∧
    (run boot c7trace).status = Status.waiting_qr ∧
    step (run boot c7trace) (Ev.evQR 0 6) = run boot c7trace ∧
    (step (run boot c7trace) (Ev.evQR 0 6)).status ≠ Status.error ∧
    (step (run boot c7trace) (Ev.evQR 0 6)).qrAttempts = 5 := by
  exact ⟨by decide, by decide, by decide, by decide, by decide⟩

/-- C7 amended: along every event trace from boot the QR counter never
exceeds `MAX_QR_ATTEMPTS = 5`, and once the budget is reached any further
QR event is a complete no-op on the state (dropped without mutation and
without raising), but no error status is surfaced. -/
theorem c7_qr_budget :
    (∀ tr : List Ev, (run boot tr).qrAttempts ≤ MAX_QR_ATTEMPTS) ∧
    (∀ (s : St) (a q : Nat), MAX_QR_ATTEMPTS ≤ s.qrAttempts →
      step s (Ev.evQR a q) = s) := by
  constructor
  · intro tr
    exact qrAttempts_le_run tr boot (by decide)
  · intro s a q h
    simp only [step]
    split_ifs with hm
    · unfold qrUpdate
      rw [if_neg]
      intro hcon
      exact absurd hcon.2 (by omega)
    · rfl

/-- C7 witness: the trace bound at the six-QR trace, and the no-op of a QR
event arriving with the budget already exhausted. -/
theorem c7_qr_budget_witness :
    (run boot c7trace).qrAttempts ≤ MAX_QR_ATTEMPTS ∧
    step (run boot c7trace) (Ev.evQR 0 9) = run boot c7trace :=
  ⟨c7_qr_budget.1 c7trace, c7_qr_budget.2 (run boot c7trace) 0 9 (by decide)⟩
